import Mathlib

set_option maxRecDepth 100000

/-!
Verification of the pitch-buddy context store, usage meter and prompt
pipeline.  The Python sources (`context_manager.py`, `app.py`) are embedded
shallowly: JSON values become an inductive `Json` type, Python dictionaries
become association lists with first-occurrence replace semantics, the
per-workspace backing files become an explicit `Store` state, the current
time and date are passed as explicit arguments, and Python exceptions that
the code does not catch become `Except PyErr`.  Python string methods
(`strip`, `lower`, `replace`, `split`, `join`, `in`, `startswith`) are
implemented structurally over `List Char` so that every definition reduces
in the kernel.
-/

namespace PitchBuddy

/-- A JSON value as produced by Python `json.load` / consumed by `json.dump`.
Object fields keep their file order; `json.load` builds a Python dict, so
objects read from a real file never carry duplicate keys. -/
inductive Json where
  | null
  | bool (b : Bool)
  | num (n : Int)
  | str (s : String)
  | arr (xs : List Json)
  | obj (kvs : List (String × Json))

/-- Python uncaught exceptions that the embedded operations can raise. -/
inductive PyErr where
  | typeError
  | attributeError
deriving DecidableEq, Repr

/-- Python dict lookup `d.get(k)` on an association list: first matching key. -/
def lookupKey (k : String) : List (String × Json) → Option Json
  | [] => none
  | (k', v) :: rest => if k' = k then some v else lookupKey k rest

/-- Python dict assignment `d[k] = v`: replaces the value at the first
occurrence of `k` (keeping its position), otherwise appends a new entry.
This is exactly CPython insertion-order semantics. -/
def dictInsert (k : String) (v : Json) : List (String × Json) → List (String × Json)
  | [] => [(k, v)]
  | (k', v') :: rest => if k' = k then (k, v) :: rest else (k', v') :: dictInsert k v rest

/-- Python truthiness of a JSON value (`if x:`). -/
def truthy : Json → Bool
  | .null => false
  | .bool b => b
  | .num n => n != 0
  | .str s => s != ""
  | .arr xs => !xs.isEmpty
  | .obj kvs => !kvs.isEmpty

/-! ### Python string methods, implemented structurally -/

/-- The whitespace characters stripped by Python `str.strip()`. -/
def pyIsSpace (c : Char) : Bool :=
  c = ' ' || c = '\t' || c = '\n' || c = '\r' || c = '\x0b' || c = '\x0c'

/-- Python `s.strip()`. -/
def pyStrip (s : String) : String :=
  ⟨((s.toList.dropWhile pyIsSpace).reverse.dropWhile pyIsSpace).reverse⟩

/-- ASCII lower-casing of one character (Python `str.lower` on the ASCII
strings this application manipulates). -/
def pyLowerChar (c : Char) : Char :=
  if 'A' ≤ c && c ≤ 'Z' then Char.ofNat (c.toNat + 32) else c

/-- Python `s.lower()`. -/
def pyLower (s : String) : String :=
  ⟨s.toList.map pyLowerChar⟩

/-- Membership of `pat` as a contiguous substring (Python `pat in s`). -/
def containsAux (pat : List Char) : List Char → Bool
  | [] => pat.isEmpty
  | c :: rest => pat.isPrefixOf (c :: rest) || containsAux pat rest

/-- Python substring test `pat in s`. -/
def strContains (s pat : String) : Bool :=
  containsAux pat.toList s.toList

/-- Python `s.startswith(pat)`. -/
def pyStartsWith (s pat : String) : Bool :=
  pat.toList.isPrefixOf s.toList

/-- Left-to-right non-overlapping replacement of `pat` by `rep`
(Python `s.replace(pat, rep)` for a non-empty `pat`); the fuel argument is
an upper bound on the scan length, so the recursion is structural. -/
def replaceAux (pat rep : List Char) : Nat → List Char → List Char
  | 0, s => s
  | _ + 1, [] => []
  | fuel + 1, c :: rest =>
    if pat.isPrefixOf (c :: rest) then
      rep ++ replaceAux pat rep fuel ((c :: rest).drop pat.length)
    else
      c :: replaceAux pat rep fuel rest

/-- Python `s.replace(pat, rep)` (the application only uses non-empty
patterns). -/
def pyReplace (s pat rep : String) : String :=
  ⟨replaceAux pat.toList rep.toList s.toList.length s.toList⟩

/-- Splitting on one separator character, keeping empty groups
(Python `s.split(sep)` for a one-character separator). -/
def splitCharAux (sep : Char) : List Char → List (List Char)
  | [] => [[]]
  | c :: rest =>
    match splitCharAux sep rest with
    | [] => [[c]]
    | grp :: gs => if c = sep then [] :: grp :: gs else (c :: grp) :: gs

/-- Python `s.split('\n')`. -/
def splitLines (s : String) : List String :=
  (splitCharAux '\n' s.toList).map (fun l => ⟨l⟩)

/-- Python `sep.join(parts)`. -/
def pyJoin (sep : String) (parts : List String) : String :=
  ⟨sep.toList.intercalate (parts.map String.toList)⟩

/-! ### Context store (`context_manager.py`, class `ContextManager`)

`get_user_file_path` maps a workspace key through a deterministic digest to
a file path, so the family of per-workspace backing files is modelled as a
function from the workspace key to the content found at its path. -/

/-- What sits at a workspace's backing-file path. -/
inductive FileContent where
  | missing
  /-- Text that `json.load` rejects (raises `json.JSONDecodeError`). -/
  | invalid
  /-- Text that `json.load` decodes to the JSON value `j`. -/
  | parsed (j : Json)

/-- The persistent state: the backing-file content for each workspace key. -/
def Store := String → FileContent

/-- `ContextManager.load_contexts`: empty key gives `{}`; a missing file
gives `{}`; `json.JSONDecodeError` is caught and gives `{}`; any value that
`json.load` decodes is returned as is. -/
def load_contexts (workspace_key : String) (st : Store) : Json :=
  if workspace_key = "" then .obj []
  else
    match st workspace_key with
    | .missing => .obj []
    | .invalid => .obj []
    | .parsed j => j

/-- `ContextManager.save_contexts`: empty key is a no-op; otherwise
`json.dump` rewrites the workspace's backing file with the given value. -/
def save_contexts (contexts : Json) (workspace_key : String) (st : Store) : Store :=
  if workspace_key = "" then st
  else fun w => if w = workspace_key then .parsed contexts else st w

/-- `ContextManager.get_context_names`: `list(contexts.keys())`; raises
`AttributeError` when the loaded value is not a dict. -/
def get_context_names (workspace_key : String) (st : Store) :
    Except PyErr (List String) :=
  match load_contexts workspace_key st with
  | .obj kvs => .ok (kvs.map Prod.fst)
  | _ => .error .attributeError

/-- `ContextManager.get_context`: `contexts.get(name)`; raises
`AttributeError` when the loaded value is not a dict. -/
def get_context (name workspace_key : String) (st : Store) :
    Except PyErr (Option Json) :=
  match load_contexts workspace_key st with
  | .obj kvs => .ok (lookupKey name kvs)
  | _ => .error .attributeError

/-- Python item assignment `container[k] = v`: `TypeError` unless the
container is a dict. -/
def setItem (container : Json) (k : String) (v : Json) : Except PyErr Json :=
  match container with
  | .obj kvs => .ok (.obj (dictInsert k v kvs))
  | _ => .error .typeError

/-- `ContextManager.save_context` with `datetime.now().isoformat()` passed
in as `now`: empty key is a no-op; otherwise load the collection, stamp
`context_data["last_updated"]`, store the record under `name` and rewrite
the backing file. -/
def save_context (now name : String) (context_data : Json)
    (workspace_key : String) (st : Store) : Except PyErr Store :=
  if workspace_key = "" then .ok st
  else
    let contexts := load_contexts workspace_key st
    match setItem context_data "last_updated" (.str now) with
    | .error e => .error e
    | .ok data2 =>
      match setItem contexts name data2 with
      | .error e => .error e
      | .ok contexts2 => .ok (save_contexts contexts2 workspace_key st)

/-- `ContextManager.export_context`: `json.dumps` of the record when the
record is present and truthy (`if context:`), else `None`.  The serialized
string is represented by the JSON value it prints, since `json.dumps` /
`json.loads` round-trip losslessly. -/
def export_context (name workspace_key : String) (st : Store) :
    Except PyErr (Option Json) :=
  match get_context name workspace_key st with
  | .error e => .error e
  | .ok (some c) => if truthy c then .ok (some c) else .ok none
  | .ok none => .ok none

/-- The string a Python value contributes when used as a dict key that
`json.dump` then writes: strings stay themselves, scalars print as their
JSON literals, unhashable containers raise `TypeError` at the dict
assignment. -/
def keyStr : Json → Except PyErr String
  | .str s => .ok s
  | .num n => .ok (toString n)
  | .bool b => .ok (if b then "true" else "false")
  | .null => .ok "null"
  | .arr _ => .error .typeError
  | .obj _ => .error .typeError

/-- The name `import_context` falls back to when no explicit name is
supplied: `context_data.get("company_name", "Imported Context")`; raises
`AttributeError` when the parsed value is not a dict. -/
def import_derived_name (context_data : Json) : Except PyErr String :=
  match context_data with
  | .obj kvs =>
    match lookupKey "company_name" kvs with
    | some v => keyStr v
    | none => .ok "Imported Context"
  | _ => .error .attributeError

/-- `ContextManager.import_context`.  The `json.loads` boundary is passed
in as `parsed` (`none` models a string whose parse raises
`json.JSONDecodeError`, the only exception the surrounding `try` catches;
`some j` models a string decoding to `j`).  The Python optional parameter
`context_name=None` is an `Option`; `if not context_name:` also treats an
explicit empty string as absent. -/
def import_context (now : String) (parsed : Option Json)
    (workspace_key : String) (context_name : Option String) (st : Store) :
    Except PyErr (Bool × Store) :=
  if workspace_key = "" then .ok (false, st)
  else
    match parsed with
    | none => .ok (false, st)
    | some context_data =>
      let nameRes :=
        match context_name with
        | some n => if n = "" then import_derived_name context_data else .ok n
        | none => import_derived_name context_data
      match nameRes with
      | .error e => .error e
      | .ok n =>
        match save_context now n context_data workspace_key st with
        | .error e => .error e
        | .ok st2 => .ok (true, st2)

/-- The Save-Context button of `render_context_editor`
(`context_manager.py`): rejects an empty company name with an error message
and no write; otherwise calls `save_context` with the company name as the
context name and this record. -/
def editor_save_decision (company_name company_info : String) :
    Option (String × Json) :=
  if company_name = "" then none
  else some (company_name,
    .obj [("company_name", .str company_name), ("company_info", .str company_info)])

/-! ### Usage meter (`app.py`) -/

/-- `DAILY_LIMIT = 250`: maximum requests per day per session. -/
def DAILY_LIMIT : Nat := 250

/-- The session-scoped usage counter: `st.session_state.usage_date` (absent
before the first check) and `st.session_state.daily_count` (`0` when the
key is unset, matching `session_state.get('daily_count', 0)` and the
init-to-zero in `increment_usage`). -/
structure UsageState where
  usage_date : Option String
  daily_count : Nat
deriving DecidableEq, Repr

/-- `check_usage_limit` with `datetime.date.today().isoformat()` passed in
as `today`: if the stored date is absent or differs from today, reset the
date and count; then `st.stop()` (modelled as returning `false`) when the
count has reached `DAILY_LIMIT`, else return `True`. -/
def check_usage_limit (today : String) (s : UsageState) : Bool × UsageState :=
  let s1 := if s.usage_date ≠ some today then ⟨some today, 0⟩ else s
  if s1.daily_count ≥ DAILY_LIMIT then (false, s1) else (true, s1)

/-- `increment_usage`: adds 1 to the daily count (initialising it to 0
first when absent, which the `Nat` field already represents). -/
def increment_usage (s : UsageState) : UsageState :=
  { s with daily_count := s.daily_count + 1 }

/-- The observable steps of one run of the Generate-Pitch click handler. -/
inductive FlowEvent where
  | limitChecked (allowed : Bool)
  | usageIncremented
  | pipelineInvoked
deriving DecidableEq, Repr

/-- The Generate-Pitch flow of `app.py`: the generation section is rendered
only under `if selected_context_name and current_context:`; the button
handler calls `check_usage_limit()` (which `st.stop()`s the script when
blocked), then `increment_usage()`, then invokes `generate_pitch`. -/
def generate_click_flow (today : String) (contextSelected buttonPressed : Bool)
    (s : UsageState) : List FlowEvent × UsageState :=
  if contextSelected = false then ([], s)
  else if buttonPressed = false then ([], s)
  else
    let r := check_usage_limit today s
    if r.1 = false then ([.limitChecked false], r.2)
    else ([.limitChecked true, .usageIncremented, .pipelineInvoked],
          increment_usage r.2)

/-! ### Prompt pipeline (`app.py`, `generate_pitch` and the click handler) -/

/-- The fixed rejection text returned when no company context is selected. -/
def no_context_message : String :=
  "❌ No company context selected. Please create and select a company context first."

/-- The sign-off directive of `generate_pitch`: appended when
`user_name.strip()` is truthy and `"email" in task_instruction.lower()`. -/
def gen_name_instruction (user_name task_instruction : String) : String :=
  if pyStrip user_name ≠ "" ∧ strContains (pyLower task_instruction) "email" = true then
    "\nSign the email with: Best regards,\n" ++ pyStrip user_name
  else ""

/-- Python `str()` rendering of a value interpolated into an f-string.
The application only ever stores strings in these fields; the container
cases print their `repr`, abstracted here and unused by the properties
below. -/
def pyStr : Json → String
  | .str s => s
  | .num n => toString n
  | .bool b => if b then "True" else "False"
  | .null => "None"
  | .arr _ => "<container repr>"
  | .obj _ => "<container repr>"

/-- `product_info.get(k, dflt)` rendered into the prompt f-string; raises
`AttributeError` when `product_info` is not a dict. -/
def dictGetStr (j : Json) (k dflt : String) : Except PyErr String :=
  match j with
  | .obj kvs =>
    match lookupKey k kvs with
    | some v => .ok (pyStr v)
    | none => .ok dflt
  | _ => .error .attributeError

/-- The prompt f-string of `generate_pitch`, with its interpolation slots as
arguments. -/
def mk_prompt (task_instruction name_instruction profile_summary
    company_summary company_name_str company_info_str : String) : String :=
  "\nYou are a business development AI assistant.\nYour task: "
    ++ task_instruction ++ name_instruction
    ++ "\n\n---\nPROSPECT PROFILE:\n" ++ profile_summary
    ++ "\n\nPROSPECT\x27S COMPANY RESEARCH:\n" ++ company_summary
    ++ "\n\nYOUR COMPANY INFO:\nCompany: " ++ company_name_str
    ++ "\nCompany Information: " ++ company_info_str
    ++ "\n---\n\nGenerate the requested content following the task instructions above. Pay special attention to any specific instructions provided (tone, length, style, key points, etc.).\n\nIMPORTANT: If this is an email, format your response as:\nSUBJECT: [subject line here]\n\n[email body here]\n\nThis makes it easy to copy the subject and body separately.\n"

/-- What one call of `generate_pitch` does: either return the fixed
rejection text without any external call, or make exactly one completion
call with the constructed prompt. -/
inductive PitchAction where
  | reject (msg : String)
  | callLLM (prompt : String)

/-- `generate_pitch`: a falsy `product_info` short-circuits to the fixed
rejection message with no completion call; otherwise the prompt is built
and sent to the completion capability. -/
def generate_pitch (profile_summary company_summary : String)
    (product_info : Json) (task_instruction user_name : String) :
    Except PyErr PitchAction :=
  if truthy product_info = false then
    .ok (.reject no_context_message)
  else
    let name_instruction := gen_name_instruction user_name task_instruction
    match dictGetStr product_info "company_name" "Unknown" with
    | .error e => .error e
    | .ok cn =>
      match dictGetStr product_info "company_info" "No information provided" with
      | .error e => .error e
      | .ok ci =>
        .ok (.callLLM (mk_prompt task_instruction name_instruction
          profile_summary company_summary cn ci))

/-- The `task_instructions` table entry for "Email outreach". -/
def email_outreach_task : String :=
  "Write a professional email outreach message (under 150 words) in a friendly, professional tone. Include a clear subject line. Be specific with addressing the prospect. Be sure to lean on their resume more than external data but consider both."

/-- The `task_instructions` table entry for "LinkedIn DM". -/
def linkedin_dm_task : String :=
  "Write a LinkedIn direct message (under 100 words) in a conversational, professional tone. Keep it concise and personalized. Focus on building connection and sparking interest. Be sure to reference their background and make it feel genuine, not salesy."

/-- The `task_instructions` table entry for "Internal-fit summary". -/
def internal_fit_task : String :=
  "In 150 words or fewer, state how this organization is a strong fit for the product — describe the best use case or alignment with their innovation, goals, or challenges. Do not write a message to them directly; this is for internal BD insight."

/-- The `task_instructions` table entry for "Cold-call voicemail". -/
def cold_call_voicemail_task : String :=
  "Write a one-sentence cold-call voicemail script that\x27s direct, conversational, and leaves a hook for the prospect to call back, max 35 words."

/-- The `task_instructions` table entry for "Long-form meeting prep". -/
def meeting_prep_task : String :=
  "Write a bullet-pointed internal briefing of 150 words or fewer (2–6 bullets). Explain how our product might be introduced and discussed in a longer meeting with the prospect, and some topics to expand upon during a meeting. Emphasize alignment with their personal background and company priorities. Use a neutral internal tone."

/-- `task_instructions.get(output_type, task_instructions["Email outreach"])`. -/
def task_instruction_for (output_type : String) : String :=
  if output_type = "Email outreach" then email_outreach_task
  else if output_type = "LinkedIn DM" then linkedin_dm_task
  else if output_type = "Internal-fit summary" then internal_fit_task
  else if output_type = "Cold-call voicemail" then cold_call_voicemail_task
  else if output_type = "Long-form meeting prep" then meeting_prep_task
  else email_outreach_task

/-- `enhanced_task_instruction` of the click handler: the base instruction,
with `"\n\nSpecific instructions: " + message_instructions.strip()` appended
when the free-text instructions are non-blank. -/
def enhanced_task_instruction (output_type message_instructions : String) : String :=
  if pyStrip message_instructions ≠ "" then
    task_instruction_for output_type ++ "\n\nSpecific instructions: "
      ++ pyStrip message_instructions
  else task_instruction_for output_type

/-! ### SUBJECT parsing of the generated email (`app.py`, click handler) -/

/-- One iteration of the `for line in lines:` loop: a line starting with
`"SUBJECT:"` (re)assigns the subject (every occurrence of the marker
removed, then stripped); after a marker has been seen, non-blank non-marker
lines accumulate in order as body lines. -/
def scan_step (st : Bool × String × List String) (line : String) :
    Bool × String × List String :=
  if pyStartsWith line "SUBJECT:" then
    (true, pyStrip (pyReplace line "SUBJECT:" ""), st.2.2)
  else if st.1 ∧ pyStrip line ≠ "" then
    (st.1, st.2.1, st.2.2 ++ [line])
  else st

/-- The whole loop, from `found_subject = False`, `subject_line = ""`,
`body_lines = []`. -/
def subject_scan (lines : List String) : Bool × String × List String :=
  lines.foldl scan_step (false, "", [])

/-- The subject/body split of the click handler: attempted only for
`"Email outreach"` results containing `"SUBJECT:"`; the split is displayed
only when both the extracted subject and the joined, stripped body are
non-empty, otherwise the result stays one opaque block (`none`). -/
def split_email (output_type pitch : String) : Option (String × String) :=
  if output_type = "Email outreach" ∧ strContains pitch "SUBJECT:" = true then
    let r := subject_scan (splitLines pitch)
    let email_body := pyStrip (pyJoin "\n" r.2.2)
    if r.2.1 ≠ "" ∧ email_body ≠ "" then some (r.2.1, email_body) else none
  else none

/-- Number of records stored under key `k` (Python dicts always have 0 or 1). -/
def countKey (k : String) : List (String × Json) → Nat
  | [] => 0
  | (k', _) :: rest => (if k' = k then 1 else 0) + countKey k rest

/-! ### Dictionary lemmas -/

theorem lookupKey_dictInsert_self (k : String) (v : Json) (l : List (String × Json)) :
    lookupKey k (dictInsert k v l) = some v := by
  induction l with
  | nil => simp [dictInsert, lookupKey]
  | cons hd tl ih =>
    obtain ⟨k', v'⟩ := hd
    by_cases h : k' = k
    · simp [dictInsert, h, lookupKey]
    · simp [dictInsert, h, lookupKey, ih]

theorem lookupKey_dictInsert_ne (k q : String) (v : Json) (l : List (String × Json))
    (h : q ≠ k) : lookupKey q (dictInsert k v l) = lookupKey q l := by
  have hkq : k ≠ q := fun hh => h hh.symm
  induction l with
  | nil => simp [dictInsert, lookupKey, hkq]
  | cons hd tl ih =>
    obtain ⟨k', v'⟩ := hd
    by_cases hk : k' = k
    · subst hk
      simp [dictInsert, lookupKey, hkq]
    · simp [dictInsert, hk, lookupKey, ih]

theorem mem_keys_dictInsert (a k : String) (v : Json) (l : List (String × Json)) :
    a ∈ (dictInsert k v l).map Prod.fst ↔ a = k ∨ a ∈ l.map Prod.fst := by
  induction l with
  | nil => simp [dictInsert]
  | cons hd tl ih =>
    obtain ⟨k', v'⟩ := hd
    by_cases h : k' = k
    · subst h
      simp [dictInsert]
    · simp only [dictInsert, if_neg h, List.map_cons, List.mem_cons, ih]
      tauto

theorem keys_nodup_dictInsert (k : String) (v : Json) (l : List (String × Json))
    (h : (l.map Prod.fst).Nodup) : ((dictInsert k v l).map Prod.fst).Nodup := by
  induction l with
  | nil => simp [dictInsert]
  | cons hd tl ih =>
    obtain ⟨k', v'⟩ := hd
    simp only [List.map_cons, List.nodup_cons] at h
    by_cases hk : k' = k
    · subst hk
      simpa [dictInsert] using h
    · simp only [dictInsert, if_neg hk, List.map_cons, List.nodup_cons]
      refine ⟨?_, ih h.2⟩
      intro hmem
      rcases (mem_keys_dictInsert k' k v tl).mp hmem with h1 | h1
      · exact hk h1
      · exact h.1 h1

theorem countKey_eq_zero (k : String) (l : List (String × Json))
    (h : k ∉ l.map Prod.fst) : countKey k l = 0 := by
  induction l with
  | nil => rfl
  | cons hd tl ih =>
    obtain ⟨k', v'⟩ := hd
    simp only [List.map_cons, List.mem_cons, not_or] at h
    have hne : k' ≠ k := fun hh => h.1 hh.symm
    simp only [countKey, if_neg hne, Nat.zero_add]
    exact ih h.2

theorem countKey_dictInsert_self (k : String) (v : Json) (l : List (String × Json))
    (h : (l.map Prod.fst).Nodup) : countKey k (dictInsert k v l) = 1 := by
  induction l with
  | nil => simp [dictInsert, countKey]
  | cons hd tl ih =>
    obtain ⟨k', v'⟩ := hd
    simp only [List.map_cons, List.nodup_cons] at h
    by_cases hk : k' = k
    · subst hk
      simp [dictInsert, countKey, countKey_eq_zero k' tl h.1]
    · have htl := ih h.2
      simp [dictInsert, countKey, hk, htl]

/-- Reading back the collection just written for a non-empty workspace key. -/
theorem load_save_contexts (j : Json) (ws : String) (st : Store) (hws : ws ≠ "") :
    load_contexts ws (save_contexts j ws st) = j := by
  simp [load_contexts, save_contexts, hws]

/-! ### Claim theorems -/

/-- Claim C1: saving twice under one name in one workspace (over a
well-formed collection, i.e. a JSON object with distinct keys, as
`json.load` produces) leaves exactly one record under that name; the
record is the second payload with `last_updated` freshly stamped, so its
`company_info` is the new one. -/
theorem save_context_overwrites_in_place
    (ws now1 now2 name : String) (d1 d2 c : List (String × Json))
    (st st1 st2 : Store)
    (hws : ws ≠ "")
    (hload : load_contexts ws st = .obj c)
    (hnodup : (c.map Prod.fst).Nodup)
    (h1 : save_context now1 name (.obj d1) ws st = .ok st1)
    (h2 : save_context now2 name (.obj d2) ws st1 = .ok st2) :
    ∃ c2, load_contexts ws st2 = .obj c2 ∧
      countKey name c2 = 1 ∧
      lookupKey name c2 = some (.obj (dictInsert "last_updated" (.str now2) d2)) ∧
      lookupKey "last_updated" (dictInsert "last_updated" (.str now2) d2)
        = some (.str now2) ∧
      lookupKey "company_info" (dictInsert "last_updated" (.str now2) d2)
        = lookupKey "company_info" d2 := by
  simp only [save_context, if_neg hws, hload, setItem] at h1
  injection h1 with h1
  subst h1
  have hl1 := load_save_contexts
    (Json.obj (dictInsert name (Json.obj (dictInsert "last_updated" (Json.str now1) d1)) c))
    ws st hws
  simp only [save_context, if_neg hws, hl1, setItem] at h2
  injection h2 with h2
  subst h2
  refine ⟨_, load_save_contexts _ ws _ hws, ?_, lookupKey_dictInsert_self .., ?_, ?_⟩
  · exact countKey_dictInsert_self _ _ _ (keys_nodup_dictInsert _ _ _ hnodup)
  · exact lookupKey_dictInsert_self ..
  · exact lookupKey_dictInsert_ne "last_updated" "company_info" _ d2 (by decide)

/-- Witness for C1: two saves of `"Acme"` over an initially missing file. -/
theorem save_context_overwrites_in_place_witness :
    ∃ c2, load_contexts "w"
        (save_contexts (.obj [("Acme", .obj [("company_name", .str "Acme"),
            ("company_info", .str "new"), ("last_updated", .str "t2")])]) "w"
          (save_contexts (.obj [("Acme", .obj [("company_name", .str "Acme"),
              ("company_info", .str "old"), ("last_updated", .str "t1")])]) "w"
            (fun _ => .missing))) = .obj c2 ∧
      countKey "Acme" c2 = 1 ∧
      lookupKey "Acme" c2 = some (.obj (dictInsert "last_updated" (.str "t2")
        [("company_name", .str "Acme"), ("company_info", .str "new")])) ∧
      lookupKey "last_updated" (dictInsert "last_updated" (.str "t2")
        [("company_name", .str "Acme"), ("company_info", .str "new")])
        = some (.str "t2") ∧
      lookupKey "company_info" (dictInsert "last_updated" (.str "t2")
        [("company_name", .str "Acme"), ("company_info", .str "new")])
        = lookupKey "company_info"
            [("company_name", .str "Acme"), ("company_info", .str "new")] :=
  save_context_overwrites_in_place "w" "t1" "t2" "Acme"
    [("company_name", .str "Acme"), ("company_info", .str "old")]
    [("company_name", .str "Acme"), ("company_info", .str "new")]
    [] (fun _ => .missing) _ _ (by decide) rfl (by simp) rfl rfl

/-- Claim C10: the store itself validates nothing: for any name — the empty
string included — and any record dict, `save_context` stamps
`last_updated` and writes the record under exactly that name; the
empty-company-name rejection lives only in the Save-Context button of the
editor UI; and a record keyed by the empty string is reachable through
`save_context` and through `import_context` (importing a record whose
`company_name` field is the empty string). -/
theorem store_no_validation (ws now name : String) (d c : List (String × Json))
    (st : Store) (hws : ws ≠ "") (hload : load_contexts ws st = .obj c) :
    (∃ st2, save_context now name (.obj d) ws st = .ok st2 ∧
      get_context name ws st2
        = .ok (some (.obj (dictInsert "last_updated" (.str now) d)))) ∧
    editor_save_decision "" "some info" = none ∧
    (∀ n i, n ≠ "" →
      editor_save_decision n i
        = some (n, .obj [("company_name", .str n), ("company_info", .str i)])) ∧
    (∃ st2,
      import_context "t0"
        (some (.obj [("company_name", .str ""), ("company_info", .str "x")]))
        "w0" none (fun _ => .missing) = .ok (true, st2) ∧
      get_context "" "w0" st2
        = .ok (some (.obj [("company_name", .str ""), ("company_info", .str "x"),
            ("last_updated", .str "t0")]))) := by
  refine ⟨?_, rfl, fun n i hn => by simp [editor_save_decision, hn], ⟨_, rfl, rfl⟩⟩
  refine ⟨save_contexts
    (.obj (dictInsert name (.obj (dictInsert "last_updated" (.str now) d)) c)) ws st,
    ?_, ?_⟩
  · simp only [save_context, if_neg hws, hload, setItem]
  · have hsv := load_save_contexts
      (Json.obj (dictInsert name (Json.obj (dictInsert "last_updated" (Json.str now) d)) c))
      ws st hws
    simp only [get_context, hsv, lookupKey_dictInsert_self]

/-- Witness for C10: saving under the empty name succeeds and stores the
record keyed by `""`. -/
theorem store_no_validation_witness :
    (∃ st2, save_context "t" ""
        (.obj [("company_name", .str ""), ("company_info", .str "i")]) "w"
        (fun _ => .missing) = .ok st2 ∧
      get_context "" "w" st2
        = .ok (some (.obj (dictInsert "last_updated" (.str "t")
            [("company_name", .str ""), ("company_info", .str "i")])))) ∧
    editor_save_decision "" "some info" = none ∧
    (∀ n i, n ≠ "" →
      editor_save_decision n i
        = some (n, .obj [("company_name", .str n), ("company_info", .str i)])) ∧
    (∃ st2,
      import_context "t0"
        (some (.obj [("company_name", .str ""), ("company_info", .str "x")]))
        "w0" none (fun _ => .missing) = .ok (true, st2) ∧
      get_context "" "w0" st2
        = .ok (some (.obj [("company_name", .str ""), ("company_info", .str "x"),
            ("last_updated", .str "t0")]))) :=
  store_no_validation "w" "t" ""
    [("company_name", .str ""), ("company_info", .str "i")] []
    (fun _ => .missing) (by decide) rfl

/-- Importing a JSON-object record with no explicit name stores it, with a
fresh `last_updated` stamp, under the derived name. -/
theorem import_object_roundtrip_aux (ws now n : String) (st : Store)
    (c kvs : List (String × Json)) (hws : ws ≠ "")
    (hl : load_contexts ws st = .obj c)
    (hname : import_derived_name (.obj kvs) = .ok n) :
    import_context now (some (.obj kvs)) ws none st
      = .ok (true, save_contexts
          (.obj (dictInsert n (.obj (dictInsert "last_updated" (.str now) kvs)) c))
          ws st) ∧
    get_context n ws (save_contexts
        (.obj (dictInsert n (.obj (dictInsert "last_updated" (.str now) kvs)) c))
        ws st)
      = .ok (some (.obj (dictInsert "last_updated" (.str now) kvs))) := by
  constructor
  · simp only [import_context, if_neg hws, hname, save_context, hl, setItem]
  · have hsv := load_save_contexts
      (Json.obj (dictInsert n (Json.obj (dictInsert "last_updated" (Json.str now) kvs)) c))
      ws st hws
    simp only [get_context, hsv, lookupKey_dictInsert_self]

/-- Claim C2: for a stored context that is a `CompanyContext`-shaped record
(a non-empty JSON object whose `company_name` field, when present, is a
string), `import(export(name))` succeeds and stores a record whose
`company_name` and `company_info` equal the original's, only the
`last_updated` stamp having changed. -/
theorem export_import_roundtrip
    (ws name now : String) (st : Store) (kvs : List (String × Json))
    (hget : get_context name ws st = .ok (some (.obj kvs)))
    (hne : kvs ≠ [])
    (hcn : ∀ v, lookupKey "company_name" kvs = some v → ∃ s, v = .str s) :
    ∃ exported, export_context name ws st = .ok (some exported) ∧
    ∃ newName st2,
      import_context now (some exported) ws none st = .ok (true, st2) ∧
    ∃ kvs2, get_context newName ws st2 = .ok (some (.obj kvs2)) ∧
      lookupKey "company_name" kvs2 = lookupKey "company_name" kvs ∧
      lookupKey "company_info" kvs2 = lookupKey "company_info" kvs := by
  have htr : truthy (.obj kvs) = true := by
    cases kvs with
    | nil => exact absurd rfl hne
    | cons a l => rfl
  have hexp : export_context name ws st = .ok (some (.obj kvs)) := by
    simp only [export_context, hget, htr, if_true]
  by_cases hws : ws = ""
  · rw [hws] at hget
    simp [get_context, load_contexts, lookupKey] at hget
  · cases hl : load_contexts ws st with
    | obj c =>
      refine ⟨.obj kvs, hexp, ?_⟩
      have hfields : ∀ q, q ≠ "last_updated" →
          lookupKey q (dictInsert "last_updated" (.str now) kvs) = lookupKey q kvs :=
        fun q hq => lookupKey_dictInsert_ne "last_updated" q _ kvs hq
      rcases hcne : lookupKey "company_name" kvs with _ | v
      · have hname : import_derived_name (.obj kvs) = .ok "Imported Context" := by
          simp [import_derived_name, hcne]
        obtain ⟨h1, h2⟩ :=
          import_object_roundtrip_aux ws now "Imported Context" st c kvs hws hl hname
        exact ⟨"Imported Context", _, h1, _, h2,
          (hfields "company_name" (by decide)).trans hcne,
          hfields "company_info" (by decide)⟩
      · obtain ⟨s, rfl⟩ := hcn v hcne
        have hname : import_derived_name (.obj kvs) = .ok s := by
          simp [import_derived_name, hcne, keyStr]
        obtain ⟨h1, h2⟩ :=
          import_object_roundtrip_aux ws now s st c kvs hws hl hname
        exact ⟨s, _, h1, _, h2,
          (hfields "company_name" (by decide)).trans hcne,
          hfields "company_info" (by decide)⟩
    | null => simp [get_context, hl] at hget
    | bool b => simp [get_context, hl] at hget
    | num n2 => simp [get_context, hl] at hget
    | str s2 => simp [get_context, hl] at hget
    | arr xs => simp [get_context, hl] at hget

/-- Witness for C2: round-tripping the stored record `"Acme"`. -/
theorem export_import_roundtrip_witness :
    ∃ exported, export_context "Acme" "ws1"
        (fun w => if w = "ws1" then FileContent.parsed (.obj [("Acme",
          .obj [("company_name", .str "Acme"), ("company_info", .str "B2B")])])
          else .missing) = .ok (some exported) ∧
    ∃ newName st2,
      import_context "t9" (some exported) "ws1" none
        (fun w => if w = "ws1" then FileContent.parsed (.obj [("Acme",
          .obj [("company_name", .str "Acme"), ("company_info", .str "B2B")])])
          else .missing) = .ok (true, st2) ∧
    ∃ kvs2, get_context newName "ws1" st2 = .ok (some (.obj kvs2)) ∧
      lookupKey "company_name" kvs2
        = lookupKey "company_name"
            [("company_name", .str "Acme"), ("company_info", .str "B2B")] ∧
      lookupKey "company_info" kvs2
        = lookupKey "company_info"
            [("company_name", .str "Acme"), ("company_info", .str "B2B")] :=
  export_import_roundtrip "ws1" "Acme" "t9"
    (fun w => if w = "ws1" then FileContent.parsed (.obj [("Acme",
      .obj [("company_name", .str "Acme"), ("company_info", .str "B2B")])])
      else .missing)
    [("company_name", .str "Acme"), ("company_info", .str "B2B")]
    rfl (by simp)
    (fun v hv => ⟨"Acme", by simp [lookupKey] at hv; exact hv.symm⟩)

/-- Counterexample to claim C3: a backing file containing valid JSON that is not
an object — here the array `[1]` — refutes the claim: `load_contexts` does
not return the empty collection (it returns the decoded array), and the
dependent read `get_context_names` raises `AttributeError` instead of
returning an empty list. -/
theorem load_contexts_nonobject_cex :
    load_contexts "w" (fun _ => .parsed (.arr [.num 1])) = .arr [.num 1] ∧
    Json.arr [.num 1] ≠ Json.obj [] ∧
    get_context_names "w" (fun _ => .parsed (.arr [.num 1]))
      = .error .attributeError ∧
    get_context "Acme" "w" (fun _ => .parsed (.arr [.num 1]))
      = .error .attributeError :=
  ⟨rfl, fun h => Json.noConfusion h, rfl, rfl⟩

/-- Claim C3 as amended: for a non-empty workspace key: a missing backing file
or one whose text is not parseable JSON (`json.JSONDecodeError`) reads as
the empty collection and never raises — the name list is empty and every
get is absent; but a file containing valid JSON is returned exactly as
decoded, and when that value is not an object the dependent reads raise. -/
theorem load_contexts_corruption_amended (ws : String) (st : Store)
    (hws : ws ≠ "") :
    ((st ws = .missing ∨ st ws = .invalid) →
      load_contexts ws st = .obj [] ∧
      get_context_names ws st = .ok [] ∧
      (∀ name, get_context name ws st = .ok none)) ∧
    (∀ j, st ws = .parsed j → load_contexts ws st = j) ∧
    (∀ xs, st ws = .parsed (.arr xs) →
      get_context_names ws st = .error .attributeError ∧
      ∀ name, get_context name ws st = .error .attributeError) := by
  refine ⟨fun h => ?_, fun j hj => ?_, fun xs hxs => ?_⟩
  · rcases h with h | h <;>
      simp [load_contexts, get_context_names, get_context, lookupKey, hws, h]
  · simp [load_contexts, hws, hj]
  · constructor
    · simp [get_context_names, load_contexts, hws, hxs]
    · intro name
      simp [get_context, load_contexts, hws, hxs]

/-- Witness for the amended C3: a workspace whose file is missing, and one
whose file is unparseable, both read as empty without raising. -/
theorem load_contexts_corruption_amended_witness :
    (load_contexts "w" (fun _ => .missing) = .obj [] ∧
      get_context_names "w" (fun _ => .missing) = .ok [] ∧
      (∀ name, get_context name "w" (fun _ => .missing) = .ok none)) ∧
    (load_contexts "w" (fun _ => .invalid) = .obj [] ∧
      get_context_names "w" (fun _ => .invalid) = .ok [] ∧
      (∀ name, get_context name "w" (fun _ => .invalid) = .ok none)) :=
  ⟨(load_contexts_corruption_amended "w" (fun _ => .missing) (by decide)).1
      (Or.inl rfl),
   (load_contexts_corruption_amended "w" (fun _ => .invalid) (by decide)).1
      (Or.inr rfl)⟩

/-- Counterexample to claim C4: the string `"[1, 2]"` parses successfully (to a
JSON array), yet `import_context` neither returns success nor failure: the
`context_data.get` call raises an uncaught `AttributeError`, because the
surrounding `try` only catches `json.JSONDecodeError`. -/
theorem import_context_nonobject_cex :
    import_context "t" (some (.arr [.num 1, .num 2])) "w" none
      (fun _ => .missing) = .error .attributeError ∧
    (import_context "t" (some (.arr [.num 1, .num 2])) "w" none
      (fun _ => .missing)).isOk = false :=
  ⟨rfl, rfl⟩

/-- Claim C4 as amended: for a non-empty workspace key: on parse failure
`import_context` returns `False` and writes nothing; when the text parses
to a JSON object it returns `True`, deriving the stored name from the
explicit name argument when that is given **and non-empty** (an explicit
empty string is falsy and treated as absent), else from the record's
`company_name` field when present, else the literal `"Imported Context"`,
and then behaves exactly as `save_context` under that name; when the text
parses to a non-object value, `import_context` raises an uncaught error
instead of returning. -/
theorem import_context_amended (now ws : String) (st : Store) :
    (∀ cn, import_context now none ws cn st = .ok (false, st)) ∧
    (∀ n d, ws ≠ "" → n ≠ "" →
      import_context now (some d) ws (some n) st
        = (save_context now n d ws st).map (fun s2 => (true, s2))) ∧
    (∀ kvs s, ws ≠ "" → lookupKey "company_name" kvs = some (.str s) →
      import_context now (some (.obj kvs)) ws none st
        = (save_context now s (.obj kvs) ws st).map (fun s2 => (true, s2)) ∧
      import_context now (some (.obj kvs)) ws (some "") st
        = (save_context now s (.obj kvs) ws st).map (fun s2 => (true, s2))) ∧
    (∀ kvs, ws ≠ "" → lookupKey "company_name" kvs = none →
      import_context now (some (.obj kvs)) ws none st
        = (save_context now "Imported Context" (.obj kvs) ws st).map
            (fun s2 => (true, s2))) ∧
    (∀ xs, ws ≠ "" →
      import_context now (some (.arr xs)) ws none st
        = .error .attributeError) := by
  refine ⟨fun cn => ?_, fun n d hws hn => ?_, fun kvs s hws hcn => ?_,
    fun kvs hws hcn => ?_, fun xs hws => ?_⟩
  · by_cases hws : ws = "" <;> simp [import_context, hws]
  · simp only [import_context, if_neg hws, if_neg hn]
    cases h : save_context now n d ws st <;> simp [h, Except.map]
  · constructor <;>
    · simp only [import_context, if_neg hws, import_derived_name, hcn, keyStr,
        if_pos rfl]
      cases h : save_context now s (.obj kvs) ws st <;> simp [h, Except.map]
  · simp only [import_context, if_neg hws, import_derived_name, hcn]
    cases h : save_context now "Imported Context" (.obj kvs) ws st <;>
      simp [h, Except.map]
  · simp [import_context, hws, import_derived_name]

/-- Witness for the amended C4: a failed parse returns `False` leaving the
store untouched; importing `{"company_name": "Acme"}` with no explicit
name succeeds and equals the corresponding save; a parsed array raises. -/
theorem import_context_amended_witness :
    import_context "t" none "w" none (fun _ => .missing)
      = .ok (false, fun _ => .missing) ∧
    import_context "t" (some (.obj [("company_name", .str "Acme")])) "w" none
      (fun _ => .missing)
      = (save_context "t" "Acme" (.obj [("company_name", .str "Acme")]) "w"
          (fun _ => .missing)).map (fun s2 => (true, s2)) ∧
    import_context "t" (some (.arr [])) "w" none (fun _ => .missing)
      = .error .attributeError := by
  have h := import_context_amended "t" "w" (fun _ => .missing)
  exact ⟨h.1 none, (h.2.2.1 [("company_name", .str "Acme")] "Acme" (by decide) rfl).1,
    h.2.2.2.2 [] (by decide)⟩

/-- Claim C5: `check_usage_limit`: when the stored date is absent or differs
from today, the counter is reset to 0, the date is updated, and the call is
allowed; when the stored date is today, the state is unchanged and the call
is blocked exactly when the count has reached the 250-request ceiling — in
particular a count of exactly `DAILY_LIMIT` on today's date is blocked, and
the first check after a date change returns allowed with a zero count. -/
theorem check_usage_limit_spec (today : String) (s : UsageState) :
    (s.usage_date ≠ some today →
      check_usage_limit today s = (true, ⟨some today, 0⟩)) ∧
    (s.usage_date = some today →
      check_usage_limit today s
        = (if s.daily_count ≥ DAILY_LIMIT then false else true, s)) ∧
    (s.usage_date = some today → s.daily_count = DAILY_LIMIT →
      (check_usage_limit today s).1 = false) := by
  refine ⟨fun h => ?_, fun h => ?_, fun h hc => ?_⟩
  · simp [check_usage_limit, h, DAILY_LIMIT]
  · simp only [check_usage_limit, h, ne_eq, not_true_eq_false, if_false]
    split <;> rfl
  · simp [check_usage_limit, h, hc]

/-- Witness for C5: on 2026-10-12 with a stale date and a saturated count
the check resets and allows; with today's date and a count of 250 it
blocks. -/
theorem check_usage_limit_spec_witness :
    check_usage_limit "2026-10-12" ⟨some "2026-10-11", 250⟩
      = (true, ⟨some "2026-10-12", 0⟩) ∧
    (check_usage_limit "2026-10-12" ⟨some "2026-10-12", 250⟩).1 = false := by
  constructor
  · exact (check_usage_limit_spec "2026-10-12" ⟨some "2026-10-11", 250⟩).1 (by decide)
  · exact (check_usage_limit_spec "2026-10-12" ⟨some "2026-10-12", 250⟩).2.2 rfl rfl

/-- Claim C6: in the Generate-Pitch flow, `increment_usage` never runs after
a blocked `check_usage_limit`; it runs exactly once per accepted request,
only after the check passed, and exactly when the generation pipeline is
invoked (a request with no selected context never reaches any of it). -/
theorem generate_flow_usage_discipline (today : String) (cs bp : Bool)
    (s : UsageState) (tr : List FlowEvent) (s2 : UsageState)
    (h : generate_click_flow today cs bp s = (tr, s2)) :
    (FlowEvent.limitChecked false ∈ tr → FlowEvent.usageIncremented ∉ tr) ∧
    (FlowEvent.usageIncremented ∈ tr →
      tr = [.limitChecked true, .usageIncremented, .pipelineInvoked] ∧
      s2.daily_count = (check_usage_limit today s).2.daily_count + 1) ∧
    (FlowEvent.usageIncremented ∈ tr ↔ FlowEvent.pipelineInvoked ∈ tr) ∧
    (FlowEvent.pipelineInvoked ∈ tr → tr.count FlowEvent.usageIncremented = 1) ∧
    (cs = false → tr = []) := by
  cases cs with
  | false =>
    simp [generate_click_flow] at h
    obtain ⟨rfl, rfl⟩ := h
    simp
  | true =>
    cases bp with
    | false =>
      simp [generate_click_flow] at h
      obtain ⟨rfl, rfl⟩ := h
      simp
    | true =>
      by_cases hall : (check_usage_limit today s).1 = false
      · simp [generate_click_flow, hall] at h
        simp [← h.1]
      · simp [generate_click_flow, hall] at h
        rw [← h.1, ← h.2]
        refine ⟨by simp, fun _ => ⟨rfl, rfl⟩, by simp, fun _ => ?_, by simp⟩
        simp [List.count_cons]

/-- Witness for C6: a concrete accepted request increments once and invokes
the pipeline; a concrete blocked request performs no increment. -/
theorem generate_flow_usage_discipline_witness :
    (FlowEvent.usageIncremented
        ∈ (generate_click_flow "d" true true ⟨some "d", 0⟩).1 ↔
      FlowEvent.pipelineInvoked
        ∈ (generate_click_flow "d" true true ⟨some "d", 0⟩).1) ∧
    (FlowEvent.limitChecked false
        ∈ (generate_click_flow "d" true true ⟨some "d", 250⟩).1 →
      FlowEvent.usageIncremented
        ∉ (generate_click_flow "d" true true ⟨some "d", 250⟩).1) := by
  constructor
  · exact (generate_flow_usage_discipline "d" true true ⟨some "d", 0⟩ _ _ rfl).2.2.1
  · exact (generate_flow_usage_discipline "d" true true ⟨some "d", 250⟩ _ _ rfl).1

/-- Claim C7: `generate_pitch` with an absent (`None`) or empty selected
context returns the fixed rejection text and, by construction of
`PitchAction.reject`, makes no call to the completion capability. -/
theorem generate_pitch_no_context (profile company task uname : String)
    (pinfo : Json) (h : pinfo = .null ∨ pinfo = .obj []) :
    generate_pitch profile company pinfo task uname
      = .ok (.reject no_context_message) := by
  rcases h with h | h <;> subst h <;> rfl

/-- Witness for C7: the `None` context is rejected with the fixed text. -/
theorem generate_pitch_no_context_witness :
    generate_pitch "p" "c" .null "task" "name"
      = .ok (.reject no_context_message) :=
  generate_pitch_no_context "p" "c" "task" "name" .null (Or.inl rfl)

/-- Counterexample to claim C8: on the email result
`"SUBJECT: A\nSUBJECT: B\nHi"` the loop has no break, so the split's
subject is `"B"` — the LAST marker line — while the claim predicts the
first marker line `"A"` as subject with the remaining non-blank lines
(including `"SUBJECT: B"`) as body. -/
theorem split_email_last_marker_cex :
    split_email "Email outreach" "SUBJECT: A\nSUBJECT: B\nHi"
      = some ("B", "Hi") ∧
    ("B", "Hi") ≠ ("A", "SUBJECT: B\nHi") :=
  ⟨by decide, by decide⟩

/-- Claim C8 as amended: in the email split, every line beginning with
`"SUBJECT:"` reassigns the subject (all marker occurrences removed,
stripped), so the last marker line wins; after a marker has been seen the
non-blank non-marker lines accumulate in order as the body; the split is
produced only when both parts are non-empty (e.g. a lone `"SUBJECT: X"`
stays unsplit), and a result with no marker, or a non-email output type,
stays one opaque block.  The claim's own scenario behaves as stated. -/
theorem split_email_amended :
    split_email "Email outreach" "SUBJECT: Quarterly sync\n\nHi Jane, ..."
      = some ("Quarterly sync", "Hi Jane, ...") ∧
    (∀ pitch, strContains pitch "SUBJECT:" = false →
      split_email "Email outreach" pitch = none) ∧
    (∀ ot pitch, ot ≠ "Email outreach" → split_email ot pitch = none) ∧
    (∀ lines line, pyStartsWith line "SUBJECT:" = true →
      (subject_scan (lines ++ [line])).2.1
        = pyStrip (pyReplace line "SUBJECT:" "")) ∧
    (∀ (lines : List String) (s : String) (b : List String),
      (∀ l ∈ lines, pyStartsWith l "SUBJECT:" = false) →
      lines.foldl scan_step (true, s, b)
        = (true, s, b ++ lines.filter (fun l => !(pyStrip l == "")))) ∧
    split_email "Email outreach" "SUBJECT: X" = none := by
  refine ⟨by decide, fun pitch h => ?_, fun ot pitch h => ?_,
    fun lines line h => ?_, fun lines s b h => ?_, by decide⟩
  · simp [split_email, h]
  · simp [split_email, h]
  · simp [subject_scan, List.foldl_append, scan_step, h]
  · induction lines generalizing b with
    | nil => simp
    | cons l ls ih =>
      have hl := h l (by simp)
      have hrest : ∀ x ∈ ls, pyStartsWith x "SUBJECT:" = false :=
        fun x hx => h x (by simp [hx])
      by_cases hb : pyStrip l = ""
      · simp [List.foldl_cons, scan_step, hl, hb, List.filter_cons, ih b hrest]
      · simp [List.foldl_cons, scan_step, hl, hb, List.filter_cons,
          ih (b ++ [l]) hrest, List.append_assoc]

/-- Witness for the amended C8: a marker-free result stays unsplit, and a
trailing marker line resets the subject. -/
theorem split_email_amended_witness :
    split_email "Email outreach" "Hello there\nRegards" = none ∧
    (subject_scan (["intro"] ++ ["SUBJECT: Final"])).2.1
      = pyStrip (pyReplace "SUBJECT: Final" "SUBJECT:" "") := by
  have h := split_email_amended
  exact ⟨h.2.1 "Hello there\nRegards" (by decide),
    h.2.2.2.1 ["intro"] "SUBJECT: Final" (by decide)⟩

/-- Counterexample to claim C9: the sign-off gate is
`"email" in task_instruction.lower()`, and the cold-call voicemail
instruction contains `"email"` inside the word `"voicemail"`: with the
non-email output type "Cold-call voicemail", sender name "John Smith" and
empty free-text instructions, the sign-off directive IS appended and the
constructed prompt contains it. -/
theorem signoff_voicemail_cex :
    gen_name_instruction "John Smith"
        (enhanced_task_instruction "Cold-call voicemail" "")
      = "\nSign the email with: Best regards,\nJohn Smith" ∧
    generate_pitch "" ""
        (.obj [("company_name", .str "Acme"), ("company_info", .str "B2B")])
        (enhanced_task_instruction "Cold-call voicemail" "") "John Smith"
      = .ok (.callLLM (mk_prompt
          (enhanced_task_instruction "Cold-call voicemail" "")
          "\nSign the email with: Best regards,\nJohn Smith" "" "" "Acme" "B2B")) ∧
    strContains (mk_prompt (enhanced_task_instruction "Cold-call voicemail" "")
        "\nSign the email with: Best regards,\nJohn Smith" "" "" "Acme" "B2B")
      "Sign the email with:" = true :=
  ⟨by decide, by rfl, by decide⟩

/-- Claim C9 as amended: the sign-off directive is appended exactly when the
sender name is non-blank and the combined task instruction contains
`"email"` case-insensitively; since the cold-call voicemail template
contains `"voicemail"`, and free-text instructions are appended into the
gated string, the no-sign-off guarantee holds for the non-email output
types other than voicemail only when the free-text instructions keep the
combined instruction free of `"email"` — and then the constructed prompt
carries an empty sign-off slot. -/
theorem signoff_gate_amended :
    (∀ ot instr uname,
      strContains (pyLower (enhanced_task_instruction ot instr)) "email" = false →
      gen_name_instruction uname (enhanced_task_instruction ot instr) = "") ∧
    (∀ ot instr uname profile company cn ci,
      strContains (pyLower (enhanced_task_instruction ot instr)) "email" = false →
      generate_pitch profile company
          (.obj [("company_name", .str cn), ("company_info", .str ci)])
          (enhanced_task_instruction ot instr) uname
        = .ok (.callLLM (mk_prompt (enhanced_task_instruction ot instr) ""
            profile company cn ci))) ∧
    (∀ uname,
      gen_name_instruction uname (enhanced_task_instruction "LinkedIn DM" "") = "" ∧
      gen_name_instruction uname
        (enhanced_task_instruction "Internal-fit summary" "") = "" ∧
      gen_name_instruction uname
        (enhanced_task_instruction "Long-form meeting prep" "") = "") := by
  have hgate : ∀ t uname, strContains (pyLower t) "email" = false →
      gen_name_instruction uname t = "" := by
    intro t uname h
    simp [gen_name_instruction, h]
  refine ⟨fun ot instr uname h => hgate _ uname h,
    fun ot instr uname profile company cn ci h => ?_, fun uname => ?_⟩
  · simp only [generate_pitch, truthy, List.isEmpty_cons, Bool.not_false,
      Bool.true_eq_false, if_false, hgate _ uname h, dictGetStr, lookupKey,
      if_pos rfl, pyStr]
    simp [lookupKey]
  · refine ⟨hgate _ uname ?_, hgate _ uname ?_, hgate _ uname ?_⟩ <;> decide

/-- Witness for the amended C9: for the LinkedIn DM type with empty
free-text instructions the combined instruction never mentions "email",
so no sign-off directive is appended for any sender name. -/
theorem signoff_gate_amended_witness :
    gen_name_instruction "John Smith"
      (enhanced_task_instruction "LinkedIn DM" "") = "" ∧
    generate_pitch "profile" "research"
        (.obj [("company_name", .str "Acme"), ("company_info", .str "B2B")])
        (enhanced_task_instruction "LinkedIn DM" "") "John Smith"
      = .ok (.callLLM (mk_prompt (enhanced_task_instruction "LinkedIn DM" "") ""
          "profile" "research" "Acme" "B2B")) := by
  have h := signoff_gate_amended
  exact ⟨h.1 "LinkedIn DM" "" "John Smith" (by decide),
    h.2.1 "LinkedIn DM" "" "John Smith" "profile" "research" "Acme" "B2B"
      (by decide)⟩

end PitchBuddy
